import Mathlib

/-!
Verification of the frame dispatcher, pointer tracker, event bus and
component manager of the `next-sketch` repository, as implemented in
`reference.js` (RAFCollection, Emitter, ComponentManager, InputManager)
and `app/providers/RuntimeProvider.tsx`.

Conventions of the shallow embedding:
* callback functions are identified by `Nat` tokens; invoking a callback
  is recorded in a trace of tokens;
* JavaScript numbers are modelled as `ℚ` (the pointer-tracker formulas
  only divide, which is exact on the samples of interest) and priorities
  as `Int`;
* `Array.prototype.sort` is stable for a consistent comparator
  (ECMAScript 2019).  `RuntimeProvider.onRaf` sorts with the consistent
  comparator `(a,b) => a.index - b.index` and is modelled as the stable
  sort by the boolean relation `a.index ≤ b.index`.  `RAFCollection.add`
  sorts with `(a,b) => a.index > b.index ? 1 : -1`, which never returns
  0: for an equal-priority pair both `compare(a,b)` and `compare(b,a)`
  are -1, so it is not a consistent comparator and ECMAScript leaves
  that sort order implementation-defined.  `RAFCollection.add` is
  therefore modelled parametrically in the engine's reordering
  (`rafcAddImpl`), and the behaviour of the dominant engine on an
  equal-priority pair is modelled concretely (`v8SortSmall`): V8's
  TimSort sees `compare(a1, a0) = -1`, classifies the run as strictly
  descending and reverses it, putting the later registration first.
-/

namespace NextSketch

/-- Subscriber entry of `RAFCollection` (`reference.js` line 122:
`this.callbacks.push({ cb, index })`); `cb` is the callback token. -/
structure RafEntry where
  cb : Nat
  index : Int
  deriving DecidableEq, Repr

/-- Boolean relation `a.index ≤ b.index`; a conforming engine sorting
with a consistent comparator derived from it would order entries this
way.  Used to build one concrete conforming reordering (a stable merge
sort) for witnesses. -/
def lePriority (a b : RafEntry) : Bool :=
  decide (a.index ≤ b.index)

/-- The literal comparator of `RAFCollection.add` (`reference.js` line
123): `(a, b) => (a.index > b.index ? 1 : -1)`.  It never returns 0. -/
def jsCompare (a b : RafEntry) : Int :=
  if a.index > b.index then 1 else -1

/-- V8's TimSort restricted to arrays of length at most two (all the
counterexample needs): a two-element array forms a single run, and when
`compare(a1, a0) < 0` the run is classified strictly descending and
reversed.  With `RAFCollection.add`'s comparator this reverses every
equal-priority pair, because `jsCompare a1 a0 = -1` whenever
`a1.index ≤ a0.index`. -/
def v8SortSmall : List RafEntry → List RafEntry
  | [a0, a1] => if jsCompare a1 a0 < 0 then [a1, a0] else [a0, a1]
  | l => l

/-- Model of `RAFCollection.add` (`reference.js` lines 121-124) under
an arbitrary conforming engine: push the new entry at the end, then
reorder the whole list with the engine's sort.  Because the comparator
never returns 0 it is not a consistent comparator, so ECMAScript leaves
the resulting order implementation-defined; `sortImpl` stands for the
engine's choice of reordering. -/
def rafcAddImpl (sortImpl : List RafEntry → List RafEntry)
    (s : List RafEntry) (cb : Nat) (index : Int) : List RafEntry :=
  sortImpl (s ++ [RafEntry.mk cb index])

/-- Model of `RAFCollection.add` under V8, for the two-registration
scenario of the counterexample. -/
def rafcAddV8 (s : List RafEntry) (cb : Nat) (index : Int) : List RafEntry :=
  rafcAddImpl v8SortSmall s cb index

/-- Model of `RAFCollection.remove` (`reference.js` lines 125-127):
`this.callbacks = this.callbacks.filter(item => item.cb !== cb)`. -/
def rafcRemove (s : List RafEntry) (cb : Nat) : List RafEntry :=
  s.filter (fun e => decide (e.cb ≠ cb))

/-- Invocation trace of one `RAFCollection._onRAF` tick (`reference.js`
lines 128-132) when no callback throws or mutates the list: callbacks are
invoked in list order. -/
def rafcTick (s : List RafEntry) : List Nat :=
  s.map RafEntry.cb

/-- Folding a whole registration sequence through `RAFCollection.add`
under engine `sortImpl`, starting from the empty collection of the
constructor. -/
def rafAddAllImpl (sortImpl : List RafEntry → List RafEntry)
    (regs : List RafEntry) : List RafEntry :=
  regs.foldl (fun acc e => rafcAddImpl sortImpl acc e.cb e.index) []

/-- Subscriber entry of `RuntimeProvider.onRaf`
(`RuntimeProvider.tsx` line 653: `const e: Entry = { index, cb }`).
`eid` is the identity of the entry object `e`, which the returned
unsubscribe closure compares against (`x !== e`). -/
structure RtEntry where
  eid : Nat
  cb : Nat
  index : Int
  deriving DecidableEq, Repr

/-- Comparator model for `onRaf`: `(a,b) => a.index - b.index`. -/
def lePriorityRt (a b : RtEntry) : Bool :=
  decide (a.index ≤ b.index)

/-- Model of `RuntimeProvider.onRaf` (`RuntimeProvider.tsx` lines
652-657): push the entry, then stable-sort by priority. -/
def rtSubscribe (s : List RtEntry) (e : RtEntry) : List RtEntry :=
  (s ++ [e]).mergeSort lePriorityRt

/-- Model of the unsubscribe closure returned by `onRaf`
(`RuntimeProvider.tsx` line 656):
`subs.current = subs.current.filter(x => x !== e)`. -/
def rtUnsubscribe (s : List RtEntry) (eid : Nat) : List RtEntry :=
  s.filter (fun e => decide (e.eid ≠ eid))

/-- Folding a whole registration sequence through `onRaf`. -/
def rtSubAll (regs : List RtEntry) : List RtEntry :=
  regs.foldl rtSubscribe []

/-- Invocation trace of one tick of the `RuntimeProvider` loop
(`RuntimeProvider.tsx` line 693) when no callback throws or mutates the
list: `for (const e of subs.current) e.cb(t)`. -/
def rtTick (s : List RtEntry) : List Nat :=
  s.map RtEntry.cb

/-- Behaviour of a frame callback when invoked: either it returns
normally or it throws an exception. -/
inductive CbBeh where
  | ok : CbBeh
  | throws : CbBeh
  deriving DecidableEq, Repr

/-- Subscriber entry for the exception model of one tick. -/
structure TickEntry where
  cb : Nat
  beh : CbBeh
  index : Int
  deriving DecidableEq, Repr

/-- Dispatch of one tick over a fixed subscriber list, parametrised by
whether each call is wrapped in try/catch.  Returns the invocation trace
and whether the dispatch loop ran to completion (`false` when an
exception escaped it). -/
def dispatchTick (catchErrors : Bool) : List TickEntry → List Nat × Bool
  | [] => ([], true)
  | e :: rest =>
    match e.beh with
    | CbBeh.ok =>
      let r := dispatchTick catchErrors rest
      (e.cb :: r.1, r.2)
    | CbBeh.throws =>
      if catchErrors then
        let r := dispatchTick catchErrors rest
        (e.cb :: r.1, r.2)
      else
        ([e.cb], false)

/-- Model of `RAFCollection._onRAF` (`reference.js` lines 128-132): every
call is wrapped, `try { this.callbacks[i].cb(t) } catch (e) { }`. -/
def rafcOnRAF (s : List TickEntry) : List Nat × Bool :=
  dispatchTick true s

/-- Model of one tick of the `RuntimeProvider` loop
(`RuntimeProvider.tsx` lines 691-694): `for (const e of subs.current)
e.cb(t)` with no try/catch around the call. -/
def rtLoopTick (s : List TickEntry) : List Nat × Bool :=
  dispatchTick false s

/-- Model of the `RuntimeProvider` driver over `n` consecutive frames.
The loop body runs `raf = requestAnimationFrame(loop)` before it
dispatches, so the next frame is already scheduled when a callback
throws; an exception escaping the rAF callback is reported by the host
and does not cancel the scheduled frame, hence every one of the `n`
ticks takes place. -/
def rtDrive (s : List TickEntry) : Nat → List (List Nat)
  | 0 => []
  | n + 1 => (rtLoopTick s).1 :: rtDrive s n

/-- Subscriber entry for the re-entrant unsubscribe model: when invoked,
the callback optionally removes the callback bearing the given token
(via `RAFCollection.remove` or the `onRaf` unsubscribe closure). -/
structure ReEntry where
  cb : Nat
  removes : Option Nat
  index : Int
  deriving DecidableEq, Repr

/-- Effect on the subscriber list of a removal requested from inside a
callback: both removal paths replace the list with a filtered copy. -/
def applyRemoval (s : List ReEntry) (r : Option Nat) : List ReEntry :=
  match r with
  | none => s
  | some c => s.filter (fun x => decide (x.cb ≠ c))

/-- Model of `RAFCollection._onRAF` under re-entrant removal, faithful
to the index-based loop `for (let i = 0; i < this.callbacks.length; i++)
{ try { this.callbacks[i].cb(t) } catch (e) {} }` together with
`remove`, which rebinds `this.callbacks` to a fresh filtered array: the
loop re-reads the field on every iteration, so a removal shifts the
remaining entries under the running index.  `fuel` bounds the iteration
count; since `i` grows by one per step and the list never grows,
`s.length` iterations always suffice, and exhausted fuel returns the
same state as the failing loop test.  Returns the invocation trace and
the final subscriber list. -/
def rafcReAux (fuel : Nat) (s : List ReEntry) (i : Nat) : List Nat × List ReEntry :=
  match fuel with
  | 0 => ([], s)
  | fuel + 1 =>
    if h : i < s.length then
      let e := s.get ⟨i, h⟩
      let s2 := applyRemoval s e.removes
      let r := rafcReAux fuel s2 (i + 1)
      (e.cb :: r.1, r.2)
    else ([], s)

/-- One `RAFCollection._onRAF` tick under re-entrant removal. -/
def rafcReTick (s : List ReEntry) : List Nat × List ReEntry :=
  rafcReAux s.length s 0

/-- One tick of the `RuntimeProvider` loop under re-entrant removal:
`for (const e of subs.current)` iterates the array object captured when
the loop header ran, while an unsubscribe inside a callback rebinds
`subs.current` to a fresh filtered array, leaving the iterated snapshot
untouched.  Hence every captured callback is invoked, and the final
subscriber list is the snapshot with all requested removals applied in
invocation order. -/
def rtReTick (subs : List ReEntry) : List Nat × List ReEntry :=
  (subs.map ReEntry.cb, subs.foldl (fun cur e => applyRemoval cur e.removes) subs)

/-- Two-component vector of rational coordinates. -/
structure Vec2 where
  x : ℚ
  y : ℚ
  deriving DecidableEq, Repr

/-- The five coordinate spaces of the `PointerSpaces` record of
`RuntimeProvider.tsx` (lines 627-633): raw pixels, screen-normalized,
normalized device coordinates, centered pixels, velocity estimate. -/
structure PointerSpaces where
  px : Vec2
  screen : Vec2
  ndc : Vec2
  gl : Vec2
  v : Vec2
  deriving DecidableEq, Repr

/-- The `last` sample kept by the `RuntimeProvider` move handler
(`RuntimeProvider.tsx` line 673): previous raw position and its time. -/
structure LastSample where
  x : ℚ
  y : ℚ
  t : ℚ
  deriving DecidableEq, Repr

/-- Initial pointer state of `RuntimeProvider`
(`RuntimeProvider.tsx` lines 660-666). -/
def initialPointer : PointerSpaces :=
  PointerSpaces.mk (Vec2.mk 0 0) (Vec2.mk 0 0) (Vec2.mk (-1) (-1))
    (Vec2.mk 0 0) (Vec2.mk 0 0)

/-- Model of the `RuntimeProvider` `onMove` handler
(`RuntimeProvider.tsx` lines 674-685).  `prev` is the pointer record
before the event (every one of its five fields is overwritten), `last`
the previous raw sample, `cx cy` the client coordinates of the event,
`w h` the viewport read inside the handler, `now` the current time in
milliseconds.  Returns the new pointer record and the new `last`.  The
elapsed time is floored at one millisecond:
`const dt = Math.max(1, now - last.t)`. -/
def onMove (prev : PointerSpaces) (last : LastSample) (cx cy w h now : ℚ) :
    PointerSpaces × LastSample :=
  let dt := max 1 (now - last.t)
  ({ prev with
      px := Vec2.mk cx cy
      screen := Vec2.mk (cx / w) (cy / h)
      ndc := Vec2.mk ((cx / w) * 2 - 1) (-((cy / h) * 2 - 1))
      gl := Vec2.mk (cx - w / 2) (-(cy - h / 2))
      v := Vec2.mk ((cx - last.x) / dt) ((cy - last.y) / dt) },
    LastSample.mk cx cy now)

/-- Mouse state of the global `G.mouse` record as updated by
`InputManager._onPointerMove` (`reference.js` lines 222-228).  The
`smooth` sub-record is written by other code, not by this handler, and
is omitted. -/
structure GMouse where
  x : ℚ
  y : ℚ
  gl : Vec2
  glNormalized : Vec2
  glScreenSpace : Vec2
  deriving DecidableEq, Repr

/-- Model of `InputManager._onPointerMove` (`reference.js` lines
218-231) restricted to the coordinate-space updates: `G.mouse.x/y`,
`G.mouse.gl.set(x - w/2, -(y - h/2))`,
`G.mouse.glNormalized.set((x/w)*2 - 1, -(y/h)*2 + 1)`,
`G.mouse.glScreenSpace.set(x/w, 1 - y/h)`. -/
def inputOnPointerMove (m : GMouse) (cx cy w h : ℚ) : GMouse :=
  { m with
      x := cx
      y := cy
      gl := Vec2.mk (cx - w / 2) (-(cy - h / 2))
      glNormalized := Vec2.mk ((cx / w) * 2 - 1) (-(cy / h) * 2 + 1)
      glScreenSpace := Vec2.mk (cx / w) (1 - cy / h) }

/-- Device-normalized-coordinates formula, modelled from the spec words
`deviceNormalized == (2x/w - 1, -(2y/h - 1))`, for comparison against
the stored state. -/
def ndcFormula (cx cy w h : ℚ) : Vec2 :=
  Vec2.mk (2 * cx / w - 1) (-(2 * cy / h - 1))

/-- State of the `Emitter` singleton (`reference.js` lines 89-104): a
`Map` from topic token to the `Set` of handler tokens for the topic;
both are iterated in insertion order. -/
abbrev EmState := List (Nat × List Nat)

/-- JS `Set.prototype.add` on an insertion-ordered set: append the
element if it is not already present. -/
def setAdd (l : List Nat) (cb : Nat) : List Nat :=
  if cb ∈ l then l else l ++ [cb]

/-- JS `Set.prototype.delete`. -/
def setDelete (l : List Nat) (cb : Nat) : List Nat :=
  l.filter (fun x => decide (x ≠ cb))

/-- Model of `Emitter.on` (`reference.js` lines 92-95): create the
topic's set if absent (a fresh `Map` key is appended last), then add the
handler to the set. -/
def emOn : EmState → Nat → Nat → EmState
  | [], evt, cb => [(evt, [cb])]
  | (e, hs) :: rest, evt, cb =>
    if e = evt then (e, setAdd hs cb) :: rest
    else (e, hs) :: emOn rest evt cb

/-- Model of `Emitter.off` (`reference.js` lines 96-98):
`if (handlers.has(evt)) handlers.get(evt).delete(cb)`. -/
def emOff : EmState → Nat → Nat → EmState
  | [], _, _ => []
  | (e, hs) :: rest, evt, cb =>
    if e = evt then (e, setDelete hs cb) :: rest
    else (e, hs) :: emOff rest evt cb

/-- Handler set held for a topic (empty when the topic is unknown). -/
def emHandlers : EmState → Nat → List Nat
  | [], _ => []
  | (e, hs) :: rest, evt => if e = evt then hs else emHandlers rest evt

/-- Model of `Emitter.emit` (`reference.js` lines 99-102): when the
topic is unknown, return at once; otherwise invoke every handler of the
topic's set, in set order, with the payload.  Returns the delivery
trace (handler, payload); `emit` itself never writes the registry, so
the state is left unchanged by construction.  Handlers are opaque
tokens here: re-entrant registration from inside a handler is outside
this model. -/
def emEmit (s : EmState) (evt : Nat) (payload : Nat) : List (Nat × Nat) :=
  (emHandlers s evt).map (fun cb => (cb, payload))

/-- A registration-history operation on the emitter. -/
inductive EmOp where
  | subOp (evt cb : Nat) : EmOp
  | unsubOp (evt cb : Nat) : EmOp
  deriving DecidableEq, Repr

/-- Interpretation of one operation. -/
def emApply (s : EmState) : EmOp → EmState
  | EmOp.subOp evt cb => emOn s evt cb
  | EmOp.unsubOp evt cb => emOff s evt cb

/-- Emitter state after a whole operation history, starting from the
fresh `new Map()` of the module initializer. -/
def emRun (ops : List EmOp) : EmState :=
  ops.foldl emApply []

/-- Modelled from the spec, one step: how one history operation changes
the set of handlers registered for the observed topic. -/
def specStep (evt : Nat) (acc : List Nat) : EmOp → List Nat
  | EmOp.subOp e cb => if e = evt then setAdd acc cb else acc
  | EmOp.unsubOp e cb => if e = evt then setDelete acc cb else acc

/-- Modelled from the spec: the handlers registered for a topic at
publish time, in registration order, computed over the operation
history alone (registering an already-registered handler does not move
it; re-registering after a removal appends anew, matching insertion
order of a set). -/
def specRegistered (ops : List EmOp) (evt : Nat) : List Nat :=
  ops.foldl (specStep evt) []

/-- Component type descriptor for `ComponentManager`: `selector` models
the static `selector` property (`none` when the class leaves it
undefined), `cname` the class name used in the error message. -/
structure ComponentType where
  selector : Option String
  cname : String
  deriving DecidableEq, Repr

/-- Model of the `ComponentManager` constructor (`reference.js` lines
149-158): when the component type does not define a static `selector`
the constructor throws before any instance is created; otherwise it
instantiates one component per matched node.  `matchedNodes` stands for
the environment's `$all(Component.selector, parentEl)` and an instance
is identified by its node token. -/
def componentManagerInit (C : ComponentType) (matchedNodes : String → List Nat) :
    Except String (List Nat) :=
  match C.selector with
  | none =>
    Except.error ("Component " ++ C.cname ++ " must define a static selector.")
  | some sel => Except.ok (matchedNodes sel)

lemma lePriority_trans (a b c : RafEntry) :
    lePriority a b → lePriority b c → lePriority a c := by
  simp only [lePriority, decide_eq_true_eq]
  omega

lemma lePriority_total (a b : RafEntry) :
    lePriority a b || lePriority b a := by
  simp only [lePriority, Bool.or_eq_true, decide_eq_true_eq]
  omega

lemma lePriorityRt_trans (a b c : RtEntry) :
    lePriorityRt a b → lePriorityRt b c → lePriorityRt a c := by
  simp only [lePriorityRt, decide_eq_true_eq]
  omega

lemma lePriorityRt_total (a b : RtEntry) :
    lePriorityRt a b || lePriorityRt b a := by
  simp only [lePriorityRt, Bool.or_eq_true, decide_eq_true_eq]
  omega

/-- Stability of the modelled sort for `RtEntry` lists, phrased as
preservation, for every priority class, of the subsequence of entries
of that class. -/
lemma filter_mergeSort_stable_rt (p : Int) (l : List RtEntry) :
    (l.mergeSort lePriorityRt).filter (fun e => decide (e.index = p)) =
      l.filter (fun e => decide (e.index = p)) := by
  set P : RtEntry → Bool := fun e => decide (e.index = p) with hP
  have hmemP : ∀ e ∈ l.filter P, P e := fun e he => List.of_mem_filter he
  have hpw : (l.filter P).Pairwise (fun a b => lePriorityRt a b = true) := by
    apply List.pairwise_of_forall_mem_list
    intro a ha b hb
    have hpa := List.of_mem_filter ha
    have hpb := List.of_mem_filter hb
    simp only [hP, decide_eq_true_eq] at hpa hpb
    simp only [lePriorityRt, decide_eq_true_eq, hpa, hpb, le_refl]
  have hsub : List.Sublist (l.filter P) (l.mergeSort lePriorityRt) :=
    List.sublist_mergeSort lePriorityRt_trans lePriorityRt_total hpw
      (List.filter_sublist l)
  have hsub2 : List.Sublist (l.filter P) ((l.mergeSort lePriorityRt).filter P) := by
    have h1 : (l.filter P).filter P = l.filter P := by
      apply List.filter_eq_self.mpr hmemP
    have h2 := hsub.filter P
    rwa [h1] at h2
  have hlen : ((l.mergeSort lePriorityRt).filter P).length =
      (l.filter P).length :=
    ((l.mergeSort_perm lePriorityRt).filter P).length_eq
  exact (hsub2.eq_of_length hlen.symm).symm

lemma rafAddAllImpl_perm (sortImpl : List RafEntry → List RafEntry)
    (hperm : ∀ l, List.Perm (sortImpl l) l) (regs : List RafEntry) :
    List.Perm (rafAddAllImpl sortImpl regs) regs := by
  induction regs using List.reverseRecOn with
  | nil => simp [rafAddAllImpl]
  | append_singleton rs e ih =>
    have hstep : rafAddAllImpl sortImpl (rs ++ [e]) =
        rafcAddImpl sortImpl (rafAddAllImpl sortImpl rs) e.cb e.index := by
      simp [rafAddAllImpl]
    rw [hstep, rafcAddImpl]
    exact (hperm _).trans (ih.append_right [e])

lemma rafAddAllImpl_sorted (sortImpl : List RafEntry → List RafEntry)
    (hsort : ∀ l, (sortImpl l).Pairwise (fun a b => a.index ≤ b.index))
    (regs : List RafEntry) :
    (rafAddAllImpl sortImpl regs).Pairwise (fun a b => a.index ≤ b.index) := by
  induction regs using List.reverseRecOn with
  | nil => simp [rafAddAllImpl]
  | append_singleton rs e _ =>
    have hstep : rafAddAllImpl sortImpl (rs ++ [e]) =
        rafcAddImpl sortImpl (rafAddAllImpl sortImpl rs) e.cb e.index := by
      simp [rafAddAllImpl]
    rw [hstep, rafcAddImpl]
    exact hsort _

lemma rtSubAll_filter (regs : List RtEntry) (p : Int) :
    (rtSubAll regs).filter (fun e => decide (e.index = p)) =
      regs.filter (fun e => decide (e.index = p)) := by
  induction regs using List.reverseRecOn with
  | nil => simp [rtSubAll]
  | append_singleton rs e ih =>
    have hstep : rtSubAll (rs ++ [e]) = rtSubscribe (rtSubAll rs) e := by
      simp [rtSubAll]
    rw [hstep, rtSubscribe]
    rw [filter_mergeSort_stable_rt]
    rw [List.filter_append, List.filter_append, ih]

lemma rtSubAll_sorted (regs : List RtEntry) :
    (rtSubAll regs).Pairwise (fun a b => a.index ≤ b.index) := by
  induction regs using List.reverseRecOn with
  | nil => simp [rtSubAll]
  | append_singleton rs e _ =>
    have hstep : rtSubAll (rs ++ [e]) = rtSubscribe (rtSubAll rs) e := by
      simp [rtSubAll]
    rw [hstep, rtSubscribe]
    have h := List.sorted_mergeSort lePriorityRt_trans lePriorityRt_total
      (rtSubAll rs ++ [e])
    exact h.imp (fun hab => of_decide_eq_true hab)

/-- C1 counterexample: `RAFCollection.add` does not give a stable
equal-priority tie-break.  Its comparator (line 123) never returns 0,
so ECMAScript leaves the sort order implementation-defined, and under
V8's TimSort (run detection classifies an equal-priority pair as
strictly descending and reverses it) registering callback 0 and then
callback 1, both at priority 0, leaves the subscriber list as
[callback 1, callback 0]: the tick invokes the later registration
first, refuting the registration-order tie-break of the claim. -/
theorem rafc_equal_priority_reversed_counterexample :
    jsCompare (RafEntry.mk 1 0) (RafEntry.mk 0 0) = -1 ∧
      rafcAddV8 (rafcAddV8 [] 0 0) 1 0 = [RafEntry.mk 1 0, RafEntry.mk 0 0] ∧
      rafcTick (rafcAddV8 (rafcAddV8 [] 0 0) 1 0) = [1, 0] ∧
      ¬ rafcTick (rafcAddV8 (rafcAddV8 [] 0 0) 1 0) = [0, 1] := by
  decide

/-- C1 (amended): for every sequence of subscriptions to
`RuntimeProvider.onRaf` with arbitrary integer priorities, a single
tick invokes the callbacks in non-decreasing priority order and
callbacks of equal priority in registration order (for every priority
class, the subsequence of that class equals the registration-order
subsequence); its comparator `(a,b) => a.index - b.index` is consistent
and the ECMAScript sort is stable.  For `RAFCollection.add` the
comparator never reports a tie, so the sort order is
implementation-defined: under every engine whose sort returns a
permutation of its input ordered by non-decreasing priority (as V8's
TimSort does for this comparator), a tick invokes exactly the
registered callbacks, each once, in non-decreasing priority order —
but the equal-priority tie-break is engine-defined, not registration
order (V8 reverses an equal-priority pair; see the counterexample). -/
theorem dispatcher_tick_ordering (sortImpl : List RafEntry → List RafEntry)
    (regs : List RafEntry) (rregs : List RtEntry)
    (hperm : ∀ l, List.Perm (sortImpl l) l)
    (hsort : ∀ l, (sortImpl l).Pairwise (fun a b => a.index ≤ b.index)) :
    rafcTick (rafAddAllImpl sortImpl regs) =
      (rafAddAllImpl sortImpl regs).map RafEntry.cb ∧
    List.Perm (rafAddAllImpl sortImpl regs) regs ∧
    (rafAddAllImpl sortImpl regs).Pairwise (fun a b => a.index ≤ b.index) ∧
    rtTick (rtSubAll rregs) = (rtSubAll rregs).map RtEntry.cb ∧
    (rtSubAll rregs).Pairwise (fun a b => a.index ≤ b.index) ∧
    (∀ p : Int, (rtSubAll rregs).filter (fun e => decide (e.index = p)) =
      rregs.filter (fun e => decide (e.index = p))) :=
  ⟨rfl, rafAddAllImpl_perm sortImpl hperm regs,
    rafAddAllImpl_sorted sortImpl hsort regs, rfl,
    rtSubAll_sorted rregs, rtSubAll_filter rregs⟩

/-- Witness for the hypotheses of `dispatcher_tick_ordering`: the
stable merge sort by priority is one conforming engine reordering
(it returns a priority-sorted permutation). -/
theorem dispatcher_tick_ordering_witness :
    List.Perm
      (rafAddAllImpl (fun l => l.mergeSort lePriority)
        [RafEntry.mk 0 3, RafEntry.mk 1 1])
      [RafEntry.mk 0 3, RafEntry.mk 1 1] :=
  (dispatcher_tick_ordering (fun l => l.mergeSort lePriority)
    [RafEntry.mk 0 3, RafEntry.mk 1 1] [RtEntry.mk 0 0 2]
    (fun l => List.mergeSort_perm l lePriority)
    (fun l => (List.sorted_mergeSort lePriority_trans lePriority_total l).imp
      (fun hab => of_decide_eq_true hab))).2.1

/-- C6: unsubscribing is idempotent for both dispatchers: a second
`RAFCollection.remove` with the same callback, or a second run of the
closure returned by `RuntimeProvider.onRaf`, leaves the subscriber list
unchanged (and both are total functions, so no error is raised). -/
theorem unsubscribe_idempotent (s : List RafEntry) (cb : Nat)
    (t : List RtEntry) (eid : Nat) :
    rafcRemove (rafcRemove s cb) cb = rafcRemove s cb ∧
    rtUnsubscribe (rtUnsubscribe t eid) eid = rtUnsubscribe t eid := by
  constructor
  · simp [rafcRemove, List.filter_filter]
  · simp [rtUnsubscribe, List.filter_filter]

lemma rafcOnRAF_complete (s : List TickEntry) :
    (rafcOnRAF s).1 = s.map TickEntry.cb ∧ (rafcOnRAF s).2 = true := by
  induction s with
  | nil => simp [rafcOnRAF, dispatchTick]
  | cons e rest ih =>
    have ih1 := ih.1
    have ih2 := ih.2
    cases hb : e.beh <;>
      simp_all [rafcOnRAF, dispatchTick]

lemma rtDrive_length (s : List TickEntry) (n : Nat) :
    (rtDrive s n).length = n := by
  induction n with
  | zero => rfl
  | succ n ih => simp [rtDrive, ih]

lemma rtLoopTick_all_ok (s : List TickEntry)
    (h : ∀ e ∈ s, e.beh = CbBeh.ok) :
    (rtLoopTick s).1 = s.map TickEntry.cb := by
  induction s with
  | nil => rfl
  | cons e rest ih =>
    have he : e.beh = CbBeh.ok := h e (List.mem_cons_self e rest)
    have ih2 := ih (fun x hx => h x (List.mem_cons_of_mem e hx))
    simp_all [rtLoopTick, dispatchTick, he]

/-- C2 counterexample: in the `RuntimeProvider` frame loop, a callback
that throws does prevent the subsequent callback of the same tick from
running: with the subscriber list [callback 0 (throws), callback 1
(returns normally)], the tick invokes only callback 0 and the dispatch
loop does not complete. -/
theorem rt_throw_skips_rest_counterexample :
    (rtLoopTick [TickEntry.mk 0 CbBeh.throws 0, TickEntry.mk 1 CbBeh.ok 1]).1 = [0] ∧
      ¬ (1 ∈ (rtLoopTick [TickEntry.mk 0 CbBeh.throws 0,
        TickEntry.mk 1 CbBeh.ok 1]).1) ∧
      (rtLoopTick [TickEntry.mk 0 CbBeh.throws 0, TickEntry.mk 1 CbBeh.ok 1]).2 = false := by
  decide

/-- C2 (amended): `RAFCollection._onRAF` wraps every callback in
try/catch, so for every subscriber list and every pattern of throwing
callbacks all callbacks of the tick are invoked and the dispatch
completes.  In the `RuntimeProvider` loop the next frame is scheduled
before dispatch, so the driver still produces every subsequent tick, but
a throwing callback aborts the remainder of that tick: only when no
subscribed callback throws does the tick invoke them all. -/
theorem dispatch_exception_isolation (s : List TickEntry) (n : Nat) :
    (rafcOnRAF s).1 = s.map TickEntry.cb ∧
    (rafcOnRAF s).2 = true ∧
    (rtDrive s n).length = n ∧
    ((∀ e ∈ s, e.beh = CbBeh.ok) → (rtLoopTick s).1 = s.map TickEntry.cb) :=
  ⟨(rafcOnRAF_complete s).1, (rafcOnRAF_complete s).2, rtDrive_length s n,
    rtLoopTick_all_ok s⟩

/-- Witness for the hypotheses of `dispatch_exception_isolation`. -/
theorem dispatch_exception_isolation_witness :
    (rtLoopTick [TickEntry.mk 5 CbBeh.ok 0]).1 =
      [TickEntry.mk 5 CbBeh.ok 0].map TickEntry.cb :=
  (dispatch_exception_isolation [TickEntry.mk 5 CbBeh.ok 0] 3).2.2.2 (by decide)

lemma applyRemoval_sublist (s : List ReEntry) (r : Option Nat) :
    List.Sublist (applyRemoval s r) s := by
  cases r with
  | none => exact List.Sublist.refl s
  | some c => exact List.filter_sublist s

lemma rafcReAux_sublist (fuel : Nat) :
    ∀ (s : List ReEntry) (i : Nat), List.Sublist (rafcReAux fuel s i).2 s := by
  induction fuel with
  | zero => intro s i; exact List.Sublist.refl s
  | succ fuel ih =>
    intro s i
    rw [rafcReAux]
    by_cases h : i < s.length
    · simp only [dif_pos h]
      exact ((ih _ (i + 1)).trans (applyRemoval_sublist s _))
    · simp only [dif_neg h]
      exact List.Sublist.refl s

lemma foldl_applyRemoval_sublist (l : List ReEntry) :
    ∀ (start : List ReEntry),
      List.Sublist (l.foldl (fun cur a => applyRemoval cur a.removes) start) start := by
  induction l with
  | nil => intro start; exact List.Sublist.refl start
  | cons a l ih =>
    intro start
    simp only [List.foldl_cons]
    exact (ih _).trans (applyRemoval_sublist start a.removes)

lemma mem_applyRemoval_some (s : List ReEntry) (c : Nat) :
    ∀ x ∈ applyRemoval s (some c), x.cb ≠ c := by
  intro x hx
  have := List.of_mem_filter hx
  simpa using this

/-- C3 counterexample: in `RAFCollection._onRAF`, unsubscribing during
an active tick does disturb the in-progress iteration.  With the
subscriber list [callback 0 (which removes callback 0), callback 1],
callback 1 is present when the tick starts and is never removed, yet it
is not invoked in that tick: the removal rebinds `this.callbacks` and
the index-based loop skips over it. -/
theorem rafc_inTick_remove_counterexample :
    (rafcReTick [ReEntry.mk 0 (some 0) 0, ReEntry.mk 1 none 0]).1 = [0] ∧
      ¬ (1 ∈ (rafcReTick [ReEntry.mk 0 (some 0) 0, ReEntry.mk 1 none 0]).1) ∧
      (rafcReTick [ReEntry.mk 0 (some 0) 0, ReEntry.mk 1 none 0]).2 =
        [ReEntry.mk 1 none 0] := by
  decide

/-- C3 (amended): unsubscribing during an active tick removes the
callback from the post-tick subscriber list of either dispatcher (no
entry with the removed token survives a removal requested by an invoked
callback: shown for every removal in the `RuntimeProvider` tick and for
a removal by the first callback in `RAFCollection`; more generally the
`RAFCollection` post-tick list is a sublist of the pre-tick list).  In
the `RuntimeProvider` loop the in-progress tick iterates the captured
array, so every captured callback is still invoked; in
`RAFCollection._onRAF` the index-based loop re-reads the mutated array,
so a removal can skip a not-yet-run callback of the current tick. -/
theorem unsubscribe_during_tick (subs s rest : List ReEntry) (e f : ReEntry) (c : Nat) :
    (rtReTick subs).1 = subs.map ReEntry.cb ∧
    (e ∈ subs → e.removes = some c →
      (rtReTick subs).2.all (fun x => x.cb != c) = true) ∧
    List.Sublist (rafcReTick s).2 s ∧
    (f.removes = some c →
      (rafcReTick (f :: rest)).2.all (fun x => x.cb != c) = true) := by
  refine ⟨rfl, ?_, rafcReAux_sublist s.length s 0, ?_⟩
  · intro he hr
    obtain ⟨l1, l2, hsplit⟩ := List.append_of_mem he
    subst hsplit
    rw [List.all_eq_true]
    intro x hx
    rw [rtReTick] at hx
    simp only at hx
    rw [List.foldl_append, List.foldl_cons, hr] at hx
    have hsub := foldl_applyRemoval_sublist l2
      (applyRemoval
        (List.foldl (fun cur a => applyRemoval cur a.removes) (l1 ++ e :: l2) l1)
        (some c))
    have hx2 := hsub.subset hx
    have := mem_applyRemoval_some _ c x hx2
    simpa using this
  · intro hf
    rw [List.all_eq_true]
    intro x hx
    rw [rafcReTick] at hx
    have hlen : (f :: rest).length = rest.length + 1 := rfl
    rw [hlen, rafcReAux] at hx
    have hpos : 0 < (f :: rest).length := by simp
    simp only [dif_pos hpos] at hx
    have hget : (f :: rest).get ⟨0, hpos⟩ = f := rfl
    rw [hget, hf] at hx
    have hsub := rafcReAux_sublist rest.length (applyRemoval (f :: rest) (some c)) 1
    have hx2 := hsub.subset hx
    have := mem_applyRemoval_some _ c x hx2
    simpa using this

/-- Witness for the hypotheses of `unsubscribe_during_tick`. -/
theorem unsubscribe_during_tick_witness :
    (rtReTick [ReEntry.mk 0 (some 1) 0, ReEntry.mk 1 none 0]).2.all
        (fun x => x.cb != 1) = true ∧
      (rafcReTick (ReEntry.mk 0 (some 1) 0 :: [ReEntry.mk 1 none 0])).2.all
        (fun x => x.cb != 1) = true :=
  ⟨(unsubscribe_during_tick [ReEntry.mk 0 (some 1) 0, ReEntry.mk 1 none 0]
      [] [ReEntry.mk 1 none 0] (ReEntry.mk 0 (some 1) 0) (ReEntry.mk 0 (some 1) 0)
      1).2.1 (by decide) rfl,
    (unsubscribe_during_tick [ReEntry.mk 0 (some 1) 0, ReEntry.mk 1 none 0]
      [] [ReEntry.mk 1 none 0] (ReEntry.mk 0 (some 1) 0) (ReEntry.mk 0 (some 1) 0)
      1).2.2.2 rfl⟩

/-- C4 counterexample: `InputManager._onPointerMove` does not yield a
screen-normalized value equal to (x/w, y/h): its stored screen-space is
y-flipped.  At the raw sample x = 100, y = 25 with viewport
w = 200 > 0, h = 100 > 0, the claimed formula gives y = 25/100 = 0.25
while the handler stores glScreenSpace.y = 1 - 25/100 = 0.75. -/
theorem input_screen_space_counterexample :
    (0 : ℚ) < 200 ∧ (0 : ℚ) < 100 ∧
      (inputOnPointerMove (GMouse.mk 0 0 (Vec2.mk 0 0) (Vec2.mk 0 0) (Vec2.mk 0 0))
          100 25 200 100).glScreenSpace.y ≠ (25 : ℚ) / 100 := by
  refine ⟨by norm_num, by norm_num, ?_⟩
  norm_num [inputOnPointerMove]

/-- C4 (amended): for every raw pointer sample (x, y) and viewport
(w, h) with w > 0 and h > 0, the `RuntimeProvider` move handler yields
screenNormalized = (x/w, y/h), deviceNormalized =
(2x/w - 1, -(2y/h - 1)) and centeredPixels = (x - w/2, -(y - h/2));
`InputManager._onPointerMove` stores the same device-normalized and
centered-pixel values, but its screen-space value is
(x/w, 1 - y/h), y-flipped with respect to the claimed formula.  At the
concrete sample x = 100, y = 50, w = 200, h = 100 both handlers agree
with the claimed outputs (0.5, 0.5), (0, 0), (0, 0) since there
y/h = 1 - y/h = 0.5. -/
theorem pointer_space_formulas (p : PointerSpaces) (last : LastSample) (m : GMouse)
    (cx cy w h now : ℚ) (hw : 0 < w) (hh : 0 < h) :
    (onMove p last cx cy w h now).1.screen = Vec2.mk (cx / w) (cy / h) ∧
    (onMove p last cx cy w h now).1.ndc =
      Vec2.mk (2 * cx / w - 1) (-(2 * cy / h - 1)) ∧
    (onMove p last cx cy w h now).1.gl = Vec2.mk (cx - w / 2) (-(cy - h / 2)) ∧
    (inputOnPointerMove m cx cy w h).glNormalized =
      Vec2.mk (2 * cx / w - 1) (-(2 * cy / h - 1)) ∧
    (inputOnPointerMove m cx cy w h).gl = Vec2.mk (cx - w / 2) (-(cy - h / 2)) ∧
    (inputOnPointerMove m cx cy w h).glScreenSpace = Vec2.mk (cx / w) (1 - cy / h) := by
  refine ⟨rfl, ?_, rfl, ?_, rfl, rfl⟩
  · simp only [onMove, Vec2.mk.injEq]
    constructor <;> ring
  · simp only [inputOnPointerMove, Vec2.mk.injEq]
    constructor <;> ring

/-- Witness for the hypotheses of `pointer_space_formulas`, at the
concrete sample of the claim: x = 100, y = 50, w = 200, h = 100. -/
theorem pointer_space_formulas_witness :
    (onMove initialPointer (LastSample.mk 0 0 0) 100 50 200 100 7).1.screen =
        Vec2.mk (1 / 2) (1 / 2) ∧
      (onMove initialPointer (LastSample.mk 0 0 0) 100 50 200 100 7).1.ndc =
        Vec2.mk 0 0 ∧
      (onMove initialPointer (LastSample.mk 0 0 0) 100 50 200 100 7).1.gl =
        Vec2.mk 0 0 := by
  have h := pointer_space_formulas initialPointer (LastSample.mk 0 0 0)
    (GMouse.mk 0 0 (Vec2.mk 0 0) (Vec2.mk 0 0) (Vec2.mk 0 0))
    100 50 200 100 7 (by norm_num) (by norm_num)
  refine ⟨?_, ?_, ?_⟩
  · rw [h.1]; norm_num
  · rw [h.2.1]; norm_num
  · rw [h.2.2.1]; norm_num

/-- C5: the velocity estimate of the `RuntimeProvider` pointer tracker
for two consecutive samples equals the coordinate difference divided by
the elapsed time floored at 1 ms, per axis: after processing sample
(x0, y0) at time t0 and then (x1, y1) at time t1, the stored velocity
is ((x1 - x0) / max 1 (t1 - t0), (y1 - y0) / max 1 (t1 - t0)).  In
particular, samples (x = 0, t = 0) then (x = 10, t = 5) give
velocity.x = 2. -/
theorem pointer_velocity (p0 : PointerSpaces) (l0 : LastSample)
    (x0 y0 t0 x1 y1 t1 w h : ℚ) :
    (onMove (onMove p0 l0 x0 y0 w h t0).1 (onMove p0 l0 x0 y0 w h t0).2
        x1 y1 w h t1).1.v =
      Vec2.mk ((x1 - x0) / max 1 (t1 - t0)) ((y1 - y0) / max 1 (t1 - t0)) ∧
    (onMove p0 (LastSample.mk 0 0 0) 10 0 w h 5).1.v.x = 2 := by
  constructor
  · rfl
  · norm_num [onMove]

/-- C7: on every pointer move event each handler recomputes every
coordinate space it maintains from the single raw (x, y) sample and the
viewport read during the same handler, so no space is stale relative to
another: the result of `onMove` does not depend on any prior pointer
field (only on the raw sample, the viewport, the clock and the previous
raw sample used for velocity), all five spaces equal their formulas of
that one sample, and likewise `InputManager._onPointerMove` rewrites
all of the mouse spaces it maintains from the one sample. -/
theorem pointer_spaces_recomputed_together (p q : PointerSpaces)
    (last : LastSample) (m m2 : GMouse) (cx cy w h now : ℚ) :
    onMove p last cx cy w h now = onMove q last cx cy w h now ∧
    (onMove p last cx cy w h now).1.px = Vec2.mk cx cy ∧
    (onMove p last cx cy w h now).1.screen = Vec2.mk (cx / w) (cy / h) ∧
    (onMove p last cx cy w h now).1.ndc =
      Vec2.mk ((cx / w) * 2 - 1) (-((cy / h) * 2 - 1)) ∧
    (onMove p last cx cy w h now).1.gl = Vec2.mk (cx - w / 2) (-(cy - h / 2)) ∧
    (onMove p last cx cy w h now).1.v =
      Vec2.mk ((cx - last.x) / max 1 (now - last.t))
        ((cy - last.y) / max 1 (now - last.t)) ∧
    inputOnPointerMove m cx cy w h = inputOnPointerMove m2 cx cy w h ∧
    (inputOnPointerMove m cx cy w h).x = cx ∧
    (inputOnPointerMove m cx cy w h).y = cy ∧
    (inputOnPointerMove m cx cy w h).gl = Vec2.mk (cx - w / 2) (-(cy - h / 2)) ∧
    (inputOnPointerMove m cx cy w h).glNormalized =
      Vec2.mk ((cx / w) * 2 - 1) (-(cy / h) * 2 + 1) ∧
    (inputOnPointerMove m cx cy w h).glScreenSpace = Vec2.mk (cx / w) (1 - cy / h) :=
  ⟨rfl, rfl, rfl, rfl, rfl, rfl, rfl, rfl, rfl, rfl, rfl, rfl⟩

/-- C10: before the first move event the `RuntimeProvider` pointer
state is the fixed initial record px = (0,0), screen = (0,0),
ndc = (-1,-1), gl = (0,0), v = (0,0); for every positive viewport the
device-normalized formula applied to the stored pixel sample (0,0)
yields (-1, 1), which differs from the stored ndc in the y component,
so the cross-space consistency fails in the initial state; after any
first move event the stored ndc equals the formula. -/
theorem initial_pointer_inconsistent (w h : ℚ) (hw : 0 < w) (hh : 0 < h)
    (p : PointerSpaces) (last : LastSample) (cx cy now : ℚ) :
    initialPointer.px = Vec2.mk 0 0 ∧
    initialPointer.screen = Vec2.mk 0 0 ∧
    initialPointer.ndc = Vec2.mk (-1) (-1) ∧
    initialPointer.gl = Vec2.mk 0 0 ∧
    initialPointer.v = Vec2.mk 0 0 ∧
    ndcFormula initialPointer.px.x initialPointer.px.y w h = Vec2.mk (-1) 1 ∧
    initialPointer.ndc ≠ ndcFormula initialPointer.px.x initialPointer.px.y w h ∧
    (onMove p last cx cy w h now).1.ndc = ndcFormula cx cy w h := by
  have hf : ndcFormula initialPointer.px.x initialPointer.px.y w h = Vec2.mk (-1) 1 := by
    simp [ndcFormula, initialPointer]
  refine ⟨rfl, rfl, rfl, rfl, rfl, hf, ?_, ?_⟩
  · rw [hf]
    intro hcontra
    rw [initialPointer] at hcontra
    simp only [Vec2.mk.injEq] at hcontra
    norm_num at hcontra
  · simp only [onMove, ndcFormula, Vec2.mk.injEq]
    constructor <;> ring

/-- Witness for the hypotheses of `initial_pointer_inconsistent`, with
viewport w = 200, h = 100. -/
theorem initial_pointer_inconsistent_witness :
    initialPointer.ndc ≠ ndcFormula initialPointer.px.x initialPointer.px.y 200 100 :=
  (initial_pointer_inconsistent 200 100 (by norm_num) (by norm_num)
    initialPointer (LastSample.mk 0 0 0) 0 0 0).2.2.2.2.2.2.1

lemma emHandlers_emOn_self (s : EmState) (evt cb : Nat) :
    emHandlers (emOn s evt cb) evt = setAdd (emHandlers s evt) cb := by
  induction s with
  | nil => simp [emOn, emHandlers, setAdd]
  | cons hd rest ih =>
    obtain ⟨e, hs⟩ := hd
    by_cases he : e = evt
    · subst he
      simp [emOn, emHandlers]
    · simp [emOn, emHandlers, he, ih]

lemma emHandlers_emOn_other (s : EmState) (e2 cb evt : Nat) (hne : e2 ≠ evt) :
    emHandlers (emOn s e2 cb) evt = emHandlers s evt := by
  induction s with
  | nil => simp [emOn, emHandlers, hne]
  | cons hd rest ih =>
    obtain ⟨e, hs⟩ := hd
    by_cases he : e = e2
    · subst he
      simp [emOn, emHandlers, hne]
    · simp [emOn, emHandlers, he, ih]

lemma emHandlers_emOff_self (s : EmState) (evt cb : Nat) :
    emHandlers (emOff s evt cb) evt = setDelete (emHandlers s evt) cb := by
  induction s with
  | nil => simp [emOff, emHandlers, setDelete]
  | cons hd rest ih =>
    obtain ⟨e, hs⟩ := hd
    by_cases he : e = evt
    · subst he
      simp [emOff, emHandlers]
    · simp [emOff, emHandlers, he, ih]

lemma emHandlers_emOff_other (s : EmState) (e2 cb evt : Nat) (hne : e2 ≠ evt) :
    emHandlers (emOff s e2 cb) evt = emHandlers s evt := by
  induction s with
  | nil => simp [emOff, emHandlers]
  | cons hd rest ih =>
    obtain ⟨e, hs⟩ := hd
    by_cases he : e = e2
    · subst he
      simp [emOff, emHandlers, hne]
    · simp [emOff, emHandlers, he, ih]

lemma emRun_handlers_general (evt : Nat) (ops : List EmOp) :
    ∀ s : EmState,
      emHandlers (ops.foldl emApply s) evt = ops.foldl (specStep evt) (emHandlers s evt) := by
  induction ops with
  | nil => intro s; rfl
  | cons op rest ih =>
    intro s
    simp only [List.foldl_cons]
    rw [ih (emApply s op)]
    congr 1
    cases op with
    | subOp e cb =>
      by_cases he : e = evt
      · subst he
        simp [emApply, specStep, emHandlers_emOn_self]
      · simp [emApply, specStep, he, emHandlers_emOn_other s e cb evt he]
    | unsubOp e cb =>
      by_cases he : e = evt
      · subst he
        simp [emApply, specStep, emHandlers_emOff_self]
      · simp [emApply, specStep, he, emHandlers_emOff_other s e cb evt he]

lemma emRun_handlers (ops : List EmOp) (evt : Nat) :
    emHandlers (emRun ops) evt = specRegistered ops evt := by
  have h := emRun_handlers_general evt ops []
  simpa [emRun, specRegistered, emHandlers] using h

lemma setAdd_nodup {l : List Nat} (h : l.Nodup) (cb : Nat) : (setAdd l cb).Nodup := by
  rw [setAdd]
  split
  · exact h
  · rename_i hmem
    simp [List.nodup_append, h, hmem]

lemma setDelete_nodup {l : List Nat} (h : l.Nodup) (cb : Nat) :
    (setDelete l cb).Nodup :=
  h.filter _

lemma specRegistered_nodup_general (evt : Nat) (ops : List EmOp) :
    ∀ acc : List Nat, acc.Nodup → (ops.foldl (specStep evt) acc).Nodup := by
  induction ops with
  | nil => intro acc h; exact h
  | cons op rest ih =>
    intro acc h
    simp only [List.foldl_cons]
    apply ih
    cases op with
    | subOp e cb =>
      rw [specStep]
      split
      · exact setAdd_nodup h cb
      · exact h
    | unsubOp e cb =>
      rw [specStep]
      split
      · exact setDelete_nodup h cb
      · exact h

lemma specRegistered_unknown (evt : Nat) (ops : List EmOp)
    (h : ∀ op ∈ ops, ∀ cb : Nat, op ≠ EmOp.subOp evt cb) :
    specRegistered ops evt = [] := by
  rw [specRegistered]
  induction ops with
  | nil => rfl
  | cons op rest ih =>
    simp only [List.foldl_cons]
    have hstep : specStep evt [] op = [] := by
      cases op with
      | subOp e cb =>
        have hne : e ≠ evt := by
          intro hcontra
          subst hcontra
          exact h (EmOp.subOp e cb) (List.mem_cons_self _ _) cb rfl
        simp [specStep, hne]
      | unsubOp e cb =>
        rw [specStep]
        split <;> rfl
    rw [hstep]
    exact ih (fun op hop cb => h op (List.mem_cons_of_mem _ hop) cb)

/-- C8: for every registration history, topic and payload,
`Emitter.emit` delivers the payload to exactly the handlers registered
for the topic at emit time, in registration order (the delivery trace
refines the spec-level registered-handler list computed from the
history), each handler exactly once (the delivered handler list has no
duplicates, the `Set` having deduplicated registrations); a topic for
which the history holds no registration delivers to nobody and, `emit`
being a read of the registry, has no side effects. -/
theorem emitter_emit_delivery (ops : List EmOp) (evt payload : Nat) :
    emEmit (emRun ops) evt payload =
      (specRegistered ops evt).map (fun cb => (cb, payload)) ∧
    (emEmit (emRun ops) evt payload).map Prod.fst = specRegistered ops evt ∧
    ((emEmit (emRun ops) evt payload).map Prod.fst).Nodup ∧
    ((∀ op ∈ ops, ∀ cb : Nat, op ≠ EmOp.subOp evt cb) →
      emEmit (emRun ops) evt payload = []) := by
  have htrace : emEmit (emRun ops) evt payload =
      (specRegistered ops evt).map (fun cb => (cb, payload)) := by
    rw [emEmit, emRun_handlers]
  have hfst : (emEmit (emRun ops) evt payload).map Prod.fst = specRegistered ops evt := by
    have hcomp : (Prod.fst ∘ fun cb : Nat => (cb, payload)) = id := rfl
    rw [htrace, List.map_map, hcomp, List.map_id]
  refine ⟨htrace, hfst, ?_, ?_⟩
  · rw [hfst]
    exact specRegistered_nodup_general evt ops [] List.nodup_nil
  · intro hnone
    rw [htrace, specRegistered_unknown evt ops hnone]
    rfl

/-- Witness for the hypothesis of `emitter_emit_delivery`: a history
that registers three handlers on topic 0, emitted on the unknown topic
1. -/
theorem emitter_emit_delivery_witness :
    emEmit (emRun [EmOp.subOp 0 4, EmOp.subOp 0 5, EmOp.subOp 0 6]) 1 9 = [] :=
  (emitter_emit_delivery [EmOp.subOp 0 4, EmOp.subOp 0 5, EmOp.subOp 0 6] 1 9).2.2.2
    (by
      intro op hop cb
      simp only [List.mem_cons, List.not_mem_nil, or_false] at hop
      rcases hop with h | h | h <;> subst h <;> simp)

/-- C9: the `ComponentManager` constructor checks the static `selector`
of the component type first: when it is undefined, construction fails
immediately with the configuration error and no component instance is
created (the error result carries no instance list); when it is
defined, construction does not raise this error and instantiates one
component per matched node. -/
theorem component_manager_selector_check (C : ComponentType)
    (matchedNodes : String → List Nat) :
    (C.selector = none →
      componentManagerInit C matchedNodes =
        Except.error ("Component " ++ C.cname ++ " must define a static selector.")) ∧
    (∀ sel, C.selector = some sel →
      componentManagerInit C matchedNodes = Except.ok (matchedNodes sel)) := by
  constructor
  · intro hnone
    rw [componentManagerInit, hnone]
  · intro sel hsel
    rw [componentManagerInit, hsel]

/-- Witness for the hypotheses of `component_manager_selector_check`:
a component type without a selector fails at construction, one with a
selector constructs an instance per matched node. -/
theorem component_manager_selector_check_witness :
    componentManagerInit (ComponentType.mk none "Button") (fun _ => [1, 2]) =
        Except.error "Component Button must define a static selector." ∧
      componentManagerInit (ComponentType.mk (some ".js-btn") "Button")
        (fun _ => [1, 2]) = Except.ok [1, 2] :=
  ⟨(component_manager_selector_check (ComponentType.mk none "Button")
      (fun _ => [1, 2])).1 rfl,
    (component_manager_selector_check (ComponentType.mk (some ".js-btn") "Button")
      (fun _ => [1, 2])).2 ".js-btn" rfl⟩

end NextSketch
